import Mathlib

/-!
Verification of the Bbox / ShapeCollection core of archiyou-core.

The embedding follows the TypeScript source:
  - `src/src/Bbox.ts` (class Bbox)
  - `src/unnamed/part_000` (class ShapeCollection)
Coordinates are modelled as exact rationals (the source works on JS doubles;
all inputs used in concrete theorems are small integers where double
arithmetic is exact and the `round()` noise-correction pass is the identity).
The opencascade kernel is external to the repository; where a kernel value is
read (`Bnd_Box` corners, `SHAPE_TOLERANCE`, per-shape hashes / geometric
equality / transforms) it is modelled as data, as noted at each definition.
-/

namespace Archiyou

/-- 3D vector / point; models the Point / Vector classes used by Bbox.ts. -/
structure Vec3 where
  x : ℚ
  y : ℚ
  z : ℚ
deriving DecidableEq

/-- Componentwise vector addition (`Vector.added`). -/
def Vec3.add (a b : Vec3) : Vec3 := ⟨a.x + b.x, a.y + b.y, a.z + b.z⟩

/-- Componentwise vector subtraction (`Vector.subtracted`). -/
def Vec3.sub (a b : Vec3) : Vec3 := ⟨a.x - b.x, a.y - b.y, a.z - b.z⟩

/-- Squared euclidean distance. `Vector.distance` in the source is the real
square root; over the rationals `distance == 0` holds exactly when the
squared distance is `0`, which is how the coincidence guard uses it. -/
def Vec3.distanceSq (a b : Vec3) : ℚ :=
  (a.x - b.x) * (a.x - b.x) + (a.y - b.y) * (a.y - b.y) + (a.z - b.z) * (a.z - b.z)

/-- Modelled from the spec: the kernel shape-tolerance epsilon. The source
reads `this._oc.SHAPE_TOLERANCE` from the opencascade kernel, which is not
part of this repository; the spec calls it "a fixed shape tolerance epsilon".
A representative small positive value is used. -/
def SHAPE_TOLERANCE : ℚ := 1 / 1000000

/-- The 2D-detection tolerance, `TOLERANCE_2D = 0.4` in `Bbox.is2D`. -/
def TOLERANCE_2D : ℚ := 2 / 5

/-- The `MainAxis` type (`'x' | 'y' | 'z'`). -/
inductive MainAxis where
  | x
  | y
  | z
deriving DecidableEq

/-- Bbox bounds, the array `[xmin, xmax, ymin, ymax, zmin, zmax]` of Bbox.ts.
A constructed `Bbox` instance whose `create` failed keeps `bounds = null`;
that state is represented as `none` at the use sites (`Option Bbox`). -/
structure Bbox where
  xmin : ℚ
  xmax : ℚ
  ymin : ℚ
  ymax : ℚ
  zmin : ℚ
  zmax : ℚ
deriving DecidableEq

/-- The normalized minimum corner computed at the top of `Bbox.create`
(Bbox.ts lines 50-55). NOTE the z component: the source compares
`minv.z < maxv.y` (not `maxv.z`) — translated verbatim. -/
def bboxNormMin (minv maxv : Vec3) : Vec3 :=
  ⟨if minv.x < maxv.x then minv.x else maxv.x,
   if minv.y < maxv.y then minv.y else maxv.y,
   if minv.z < maxv.y then minv.z else maxv.z⟩

/-- The normalized maximum corner computed in `Bbox.create`. -/
def bboxNormMax (minv maxv : Vec3) : Vec3 :=
  ⟨if maxv.x > minv.x then maxv.x else minv.x,
   if maxv.y > minv.y then maxv.y else minv.y,
   if maxv.z > minv.z then maxv.z else minv.z⟩

/-- `Bbox.create(min, max)` (Bbox.ts lines 44-93). Returns `none` when the
two normalized corners are coincident (the source logs an error, leaves
`bounds = null` and returns). On success the bounds are the normalized
corners: the kernel `Bnd_Box_2` stores the two given corner points and
`setBounds` reads them back through `CornerMin` / `CornerMax` with a
rounding pass that is the identity on the exact values used here. -/
def bboxCreate (minv maxv : Vec3) : Option Bbox :=
  let minVec := bboxNormMin minv maxv
  let maxVec := bboxNormMax minv maxv
  if Vec3.distanceSq minVec maxVec = 0 then
    none
  else
    some ⟨minVec.x, maxVec.x, minVec.y, maxVec.y, minVec.z, maxVec.z⟩

/-- `Bbox.min()`: the point `(bounds[0], bounds[2], bounds[4])`. -/
def Bbox.minP (b : Bbox) : Vec3 := ⟨b.xmin, b.ymin, b.zmin⟩

/-- `Bbox.max()`: the point `(bounds[1], bounds[3], bounds[5])`. -/
def Bbox.maxP (b : Bbox) : Vec3 := ⟨b.xmax, b.ymax, b.zmax⟩

/-- `Bbox.width()` = xmax - xmin. -/
def Bbox.width (b : Bbox) : ℚ := b.xmax - b.xmin

/-- `Bbox.depth()` = ymax - ymin. -/
def Bbox.depth (b : Bbox) : ℚ := b.ymax - b.ymin

/-- `Bbox.height()` = zmax - zmin. -/
def Bbox.height (b : Bbox) : ℚ := b.zmax - b.zmin

/-- `Bbox.center()`. -/
def Bbox.center (b : Bbox) : Vec3 :=
  ⟨b.xmin + (b.xmax - b.xmin) / 2,
   b.ymin + (b.ymax - b.ymin) / 2,
   b.zmin + (b.zmax - b.zmin) / 2⟩

/-- `Bbox.isPoint()`: all three dimensions within `SHAPE_TOLERANCE`. -/
def Bbox.isPoint (b : Bbox) : Bool :=
  decide (b.height ≤ SHAPE_TOLERANCE) && decide (b.width ≤ SHAPE_TOLERANCE)
    && decide (b.depth ≤ SHAPE_TOLERANCE)

/-- `Bbox.is2D()`: some dimension within `TOLERANCE_2D + SHAPE_TOLERANCE`. -/
def Bbox.is2D (b : Bbox) : Bool :=
  decide (b.height ≤ TOLERANCE_2D + SHAPE_TOLERANCE)
    || decide (b.width ≤ TOLERANCE_2D + SHAPE_TOLERANCE)
    || decide (b.depth ≤ TOLERANCE_2D + SHAPE_TOLERANCE)

/-- `Bbox.axisMissingIn2D()` (Bbox.ts lines 344-362). -/
def Bbox.axisMissingIn2D (b : Bbox) : Option MainAxis :=
  if !b.is2D then
    none
  else if b.height ≤ SHAPE_TOLERANCE then
    some MainAxis.z
  else if b.width ≤ SHAPE_TOLERANCE then
    some MainAxis.x
  else
    some MainAxis.y

/-- `Bbox.enlarged(amount)` (Bbox.ts lines 286-295): offsets min and max by
the amount vector (zeroed on the missing axis for a 2D bbox) and rebuilds
through the constructor, i.e. through `create`. -/
def Bbox.enlarged (b : Bbox) (amount : ℚ) : Option Bbox :=
  let amountVec : Vec3 := ⟨amount, amount, amount⟩
  let amountVec : Vec3 :=
    if b.is2D then
      match b.axisMissingIn2D with
      | some MainAxis.x => ⟨0, amountVec.y, amountVec.z⟩
      | some MainAxis.y => ⟨amountVec.x, 0, amountVec.z⟩
      | some MainAxis.z => ⟨amountVec.x, amountVec.y, 0⟩
      | none => amountVec
    else amountVec
  bboxCreate (Vec3.sub b.minP amountVec) (Vec3.add b.maxP amountVec)

/-- `Bbox.added(other)` (Bbox.ts lines 298-316): per-index combined bounds
(min at even indices, max at odd indices), then a new Bbox is built from the
two combined corner points through the constructor, i.e. through `create`. -/
def Bbox.added (b other : Bbox) : Option Bbox :=
  let cb0 := if b.xmin < other.xmin then b.xmin else other.xmin
  let cb1 := if b.xmax > other.xmax then b.xmax else other.xmax
  let cb2 := if b.ymin < other.ymin then b.ymin else other.ymin
  let cb3 := if b.ymax > other.ymax then b.ymax else other.ymax
  let cb4 := if b.zmin < other.zmin then b.zmin else other.zmin
  let cb5 := if b.zmax > other.zmax then b.zmax else other.zmax
  bboxCreate ⟨cb0, cb2, cb4⟩ ⟨cb1, cb3, cb5⟩

/-- Claim C1: `Bbox.create` is claimed to be argument-order independent for
distinct corners. The code is not: because line 54 of Bbox.ts compares
`minv.z < maxv.y` instead of `minv.z < maxv.z`, the corners `(0,2,1)` and
`(3,2,0)` give z-bounds `[1,1]` in one order and `[0,1]` in the other. -/
theorem bboxCreate_order_dependent :
    bboxCreate ⟨0, 2, 1⟩ ⟨3, 2, 0⟩ = some ⟨0, 3, 2, 2, 1, 1⟩
      ∧ bboxCreate ⟨3, 2, 0⟩ ⟨0, 2, 1⟩ = some ⟨0, 3, 2, 2, 0, 1⟩
      ∧ bboxCreate ⟨0, 2, 1⟩ ⟨3, 2, 0⟩ ≠ bboxCreate ⟨3, 2, 0⟩ ⟨0, 2, 1⟩
      ∧ (⟨0, 2, 1⟩ : Vec3) ≠ ⟨3, 2, 0⟩ := by
  refine ⟨?_, ?_, ?_, ?_⟩ <;>
    norm_num [bboxCreate, bboxNormMin, bboxNormMax, Vec3.distanceSq, Vec3.mk.injEq,
      Bbox.mk.injEq]

/-- Claim C3: `added` is claimed to produce the per-axis union, and
`b.added(b)` the same bounds as `b`. The bounds `[0,1,0,1,5,10]` are
produced by `create((0,0,10),(1,1,5))`, yet `b.added(b)` rebuilds the box
through `create`, whose z-min comparison against `maxv.y` collapses the
z-range to `[10,10]` — not idempotent and not the per-axis union. -/
theorem bbox_added_not_idempotent :
    bboxCreate ⟨0, 0, 10⟩ ⟨1, 1, 5⟩ = some ⟨0, 1, 0, 1, 5, 10⟩
      ∧ Bbox.added ⟨0, 1, 0, 1, 5, 10⟩ ⟨0, 1, 0, 1, 5, 10⟩ = some ⟨0, 1, 0, 1, 10, 10⟩
      ∧ Bbox.added ⟨0, 1, 0, 1, 5, 10⟩ ⟨0, 1, 0, 1, 5, 10⟩ ≠ some ⟨0, 1, 0, 1, 5, 10⟩ := by
  refine ⟨?_, ?_, ?_⟩ <;>
    norm_num [bboxCreate, bboxNormMin, bboxNormMax, Vec3.distanceSq, Bbox.added,
      Bbox.mk.injEq]

/-- Claim C8: `enlarged(k)` is claimed to add `2k` to width, depth and
height on every non-degenerate axis. For the (3D) bbox `[0,1,0,1,5,10]`
(again produced by `create((0,0,10),(1,1,5))`) and `k = 1`, the rebuild
through `create` collapses the z-range: the result has height `0` instead
of `7`. -/
theorem bbox_enlarged_wrong_height :
    bboxCreate ⟨0, 0, 10⟩ ⟨1, 1, 5⟩ = some ⟨0, 1, 0, 1, 5, 10⟩
      ∧ Bbox.enlarged ⟨0, 1, 0, 1, 5, 10⟩ 1 = some ⟨-1, 2, -1, 2, 11, 11⟩
      ∧ Bbox.height ⟨-1, 2, -1, 2, 11, 11⟩ = 0
      ∧ Bbox.height ⟨0, 1, 0, 1, 5, 10⟩ + 2 * 1 = 7 := by
  refine ⟨?_, ?_, ?_, ?_⟩ <;>
    norm_num [bboxCreate, bboxNormMin, bboxNormMax, Vec3.distanceSq, Bbox.enlarged,
      Bbox.is2D, Bbox.height, Bbox.width, Bbox.depth, Bbox.axisMissingIn2D,
      Bbox.minP, Bbox.maxP, Vec3.add, Vec3.sub, TOLERANCE_2D, SHAPE_TOLERANCE,
      Bbox.mk.injEq]

/-- Claim C9: whenever the two normalized corner points are coincident,
`Bbox.create` returns the null marker (no bounds are populated) and does
not throw — the embedding is a total function into `Option`. -/
theorem bboxCreate_coincident_fails (a b : Vec3)
    (h : bboxNormMin a b = bboxNormMax a b) :
    bboxCreate a b = none := by
  unfold bboxCreate
  rw [h]
  have hz : Vec3.distanceSq (bboxNormMax a b) (bboxNormMax a b) = 0 := by
    simp [Vec3.distanceSq]
  rw [if_pos hz]

/-- Witness for C9 at the concrete coincident input `(0,0,0)`, `(0,0,0)`. -/
theorem bboxCreate_coincident_fails_witness :
    bboxNormMin ⟨0, 0, 0⟩ ⟨0, 0, 0⟩ = bboxNormMax ⟨0, 0, 0⟩ ⟨0, 0, 0⟩
      ∧ bboxCreate ⟨0, 0, 0⟩ ⟨0, 0, 0⟩ = none :=
  ⟨by norm_num [bboxNormMin, bboxNormMax],
   bboxCreate_coincident_fails ⟨0, 0, 0⟩ ⟨0, 0, 0⟩ (by norm_num [bboxNormMin, bboxNormMax])⟩

/-! ## ShapeCollection -/

/-- The closed variant set of single-shape types handled by ShapeCollection. -/
inductive ShapeKind where
  | vertex
  | edge
  | wire
  | face
  | shell
  | solid
deriving DecidableEq

/-- A single Shape entity. The kernel-assigned attributes read by the
collection code are modelled as data: `hash` is the structural identity
hash returned by `_hashcode()`, `geo` identifies the geometry compared by
the kernel `equals()` test (two shapes are geometrically equal iff their
`geo` fields agree), `pos` the position mutated by per-shape transforms,
and `sbbox` the shape's own bounding box (`none` when the shape yields no
box). `isEmpty` models `Shape.isEmpty()`. -/
structure ShapeData where
  kind : ShapeKind
  isEmpty : Bool
  hash : ℕ
  geo : ℕ
  pos : Vec3
  sbbox : Option Bbox
deriving DecidableEq

/-- A runtime entity fed to ShapeCollection ingestion: a point-like value,
a single shape, a (possibly ill-formed) collection carrying its `shapes`
array, a point-like sequence, `null`, or an unclassifiable value. -/
inductive Entity where
  | pt (p : Vec3)
  | sh (s : ShapeData)
  | coll (shapes : List Entity)
  | seqPts (ps : List Vec3)
  | nullE
  | unknown

/-- `new Vertex(pointlike)`: the fresh Vertex wrapping a coordinate. The
kernel-assigned attributes of a fresh vertex are opaque; they are defaulted
(they play no role in the flatness invariant). -/
def mkVertex (p : Vec3) : ShapeData :=
  ⟨ShapeKind.vertex, false, 0, 0, p, none⟩

/-- Does the entity satisfy `isAnyShape` / is it a single member shape
(`s.type() !== 'ShapeCollection'`)? -/
def isShapeEnt : Entity → Bool
  | Entity.sh _ => true
  | _ => false

/-- Every collection directly carried by this entity has a flat `shapes`
array (the ShapeCollection class invariant, assumed of pre-existing
collections given as input). -/
def entityCollsFlat : Entity → Bool
  | Entity.coll c => c.all isShapeEnt
  | _ => true

/-- The `shapes` array contains only single shapes — never a collection. -/
def Flat (l : List Entity) : Prop := ∀ e ∈ l, isShapeEnt e = true

/-- One step of the `allEntities.forEach` loop of
`ShapeCollection._addEntities` (part_000 lines 86-152): `null` is skipped;
a point-like becomes a `Vertex` (an existing Vertex instance is pushed
as-is — `isPointLike` admits Vertex instances, see line 94); a collection
is spliced member-by-member (`this.shapes.concat(es.shapes)`); a point-like
sequence is converted to vertices via a nested collection; a non-empty
single shape is appended and an empty one skipped; anything else is
skipped with a warning. -/
def addEntity (shapes : List Entity) (es : Entity) : List Entity :=
  match es with
  | Entity.nullE => shapes
  | Entity.pt p => shapes ++ [Entity.sh (mkVertex p)]
  | Entity.sh s =>
      if s.kind = ShapeKind.vertex then shapes ++ [Entity.sh s]
      else if s.isEmpty then shapes
      else shapes ++ [Entity.sh s]
  | Entity.coll c => shapes ++ c
  | Entity.seqPts ps => shapes ++ ps.map (fun p => Entity.sh (mkVertex p))
  | Entity.unknown => shapes

/-- `ShapeCollection._addEntities` over an already-flattened entity list. -/
def addEntities (shapes : List Entity) (es : List Entity) : List Entity :=
  es.foldl addEntity shapes

/-- Raw constructor input: a single entity or an arbitrarily nested array. -/
inductive RawInput where
  | ent (e : Entity)
  | arr (l : List RawInput)

mutual

/-- Modelled from the spec: `flattenEntities` / `flattenEntitiesToArray`
(imported from the repository's `./internal` utils, which are not part of
this excerpt). Per the spec, all input forms are "recursively flattened
into one linear list before classification", with coordinate arrays kept
atomic (they are `Entity.pt` / `Entity.seqPts` values here). -/
def flattenOne : RawInput → List Entity
  | RawInput.ent e => [e]
  | RawInput.arr l => flattenList l

/-- Flattening of a list of raw inputs (helper of `flattenOne`). -/
def flattenList : List RawInput → List Entity
  | [] => []
  | x :: xs => flattenOne x ++ flattenList xs

end

mutual

/-- Every collection occurring anywhere in the raw input is flat. -/
def rawCollsFlat : RawInput → Bool
  | RawInput.ent e => entityCollsFlat e
  | RawInput.arr l => rawListCollsFlat l

/-- List version of `rawCollsFlat`. -/
def rawListCollsFlat : List RawInput → Bool
  | [] => true
  | x :: xs => rawCollsFlat x && rawListCollsFlat xs

end

/-- `new ShapeCollection(entities)` → `fromAll` → `_addEntities`
(part_000 lines 39-64): flatten the raw input, then ingest into an empty
`shapes` array. -/
def shapeCollectionNew (input : RawInput) : List Entity :=
  addEntities [] (flattenOne input)

/-- `ShapeCollection.concat(other)` (part_000 lines 297-304): appends the
other collection's shapes. -/
def concatShapes (shapes other : List Entity) : List Entity := shapes ++ other

/-- `ShapeCollection.push(shape)` (part_000 lines 947-952); the argument is
checked to be a single shape (`AnyShape`). -/
def pushShape (shapes : List Entity) (s : ShapeData) : List Entity :=
  shapes ++ [Entity.sh s]

lemma flat_append (shapes l : List Entity) (hs : Flat shapes) (hl : Flat l) :
    Flat (shapes ++ l) := by
  intro x hx
  rcases List.mem_append.mp hx with h | h
  exacts [hs x h, hl x h]

lemma addEntity_flat (shapes : List Entity) (e : Entity)
    (hs : Flat shapes) (he : entityCollsFlat e = true) :
    Flat (addEntity shapes e) := by
  cases e with
  | nullE => exact hs
  | unknown => exact hs
  | pt p =>
      refine flat_append _ _ hs ?_
      intro x hx
      simp only [List.mem_singleton] at hx
      subst hx
      rfl
  | sh s =>
      have hone : Flat [Entity.sh s] := by
        intro x hx
        simp only [List.mem_singleton] at hx
        subst hx
        rfl
      by_cases h1 : s.kind = ShapeKind.vertex
      · simpa [addEntity, h1] using flat_append _ _ hs hone
      · by_cases h2 : s.isEmpty
        · simpa [addEntity, h1, h2] using hs
        · simpa [addEntity, h1, h2] using flat_append _ _ hs hone
  | coll c =>
      refine flat_append _ _ hs ?_
      intro x hx
      exact (List.all_eq_true.mp (by simpa [entityCollsFlat] using he)) x hx
  | seqPts ps =>
      refine flat_append _ _ hs ?_
      intro x hx
      rcases List.mem_map.mp hx with ⟨p, _, rfl⟩
      rfl

lemma addEntities_flat :
    ∀ (es : List Entity) (shapes : List Entity), Flat shapes →
      (∀ e ∈ es, entityCollsFlat e = true) → Flat (addEntities shapes es) := by
  intro es
  induction es with
  | nil => intro shapes hs _; simpa [addEntities] using hs
  | cons e rest ih =>
      intro shapes hs hall
      have h1 : Flat (addEntity shapes e) :=
        addEntity_flat shapes e hs (hall e (List.mem_cons_self e rest))
      have h2 : ∀ x ∈ rest, entityCollsFlat x = true :=
        fun x hx => hall x (List.mem_cons_of_mem e hx)
      simpa [addEntities] using ih (addEntity shapes e) h1 h2

mutual

theorem flattenOne_collsFlat :
    ∀ (r : RawInput), rawCollsFlat r = true →
      ∀ e ∈ flattenOne r, entityCollsFlat e = true
  | RawInput.ent e, h => by
      intro x hx
      simp only [flattenOne, List.mem_singleton] at hx
      subst hx
      simpa [rawCollsFlat] using h
  | RawInput.arr l, h =>
      flattenList_collsFlat l (by simpa [rawCollsFlat] using h)

theorem flattenList_collsFlat :
    ∀ (l : List RawInput), rawListCollsFlat l = true →
      ∀ e ∈ flattenList l, entityCollsFlat e = true
  | [], _ => by intro x hx; simp [flattenList] at hx
  | x :: xs, h => by
      intro e he
      have hsplit : rawCollsFlat x = true ∧ rawListCollsFlat xs = true := by
        simpa [rawListCollsFlat, Bool.and_eq_true] using h
      simp only [flattenList, List.mem_append] at he
      rcases he with hh | hh
      · exact flattenOne_collsFlat x hsplit.1 e hh
      · exact flattenList_collsFlat xs hsplit.2 e hh

end

/-- Claim C2: ShapeCollection ingestion always yields a flat `shapes`
sequence — provided every collection in the input satisfies the same
invariant (which holds of every collection these operations build), the
constructor/`fromAll`/`_addEntities` result contains only single shapes,
and `concat` / `push` preserve flatness. -/
theorem shapeCollection_flat_invariant :
    (∀ (input : RawInput), rawCollsFlat input = true →
        Flat (shapeCollectionNew input))
      ∧ (∀ (shapes es : List Entity), Flat shapes →
          (∀ e ∈ es, entityCollsFlat e = true) → Flat (addEntities shapes es))
      ∧ (∀ (shapes other : List Entity), Flat shapes → Flat other →
          Flat (concatShapes shapes other))
      ∧ (∀ (shapes : List Entity) (s : ShapeData), Flat shapes →
          Flat (pushShape shapes s)) := by
  refine ⟨?_, fun shapes es hs hall => addEntities_flat es shapes hs hall, ?_, ?_⟩
  · intro input h
    exact addEntities_flat (flattenOne input) [] (by intro x hx; simp at hx)
      (flattenOne_collsFlat input h)
  · intro shapes other hs ho
    exact flat_append shapes other hs ho
  · intro shapes s hs
    refine flat_append _ _ hs ?_
    intro x hx
    simp only [List.mem_singleton] at hx
    subst hx
    rfl

/-- Sample shape used in concrete ShapeCollection inputs. -/
def demoEdge : ShapeData := ⟨ShapeKind.edge, false, 1, 1, ⟨0, 0, 0⟩, none⟩

/-- A nested raw input: an array holding a collection, a coordinate and a
nested array holding a shape. -/
def demoInput : RawInput :=
  RawInput.arr [RawInput.ent (Entity.coll [Entity.sh demoEdge]),
    RawInput.ent (Entity.pt ⟨1, 2, 3⟩),
    RawInput.arr [RawInput.ent (Entity.sh demoEdge)]]

/-- Witness for C2 at a concrete nested input. -/
theorem shapeCollection_flat_witness :
    rawCollsFlat demoInput = true ∧ Flat (shapeCollectionNew demoInput) :=
  ⟨by simp [demoInput, rawCollsFlat, rawListCollsFlat, entityCollsFlat, isShapeEnt],
   shapeCollection_flat_invariant.1 demoInput
     (by simp [demoInput, rawCollsFlat, rawListCollsFlat, entityCollsFlat, isShapeEnt])⟩

/-! ## lowestType (part_000 lines 1178-1194) -/

/-- The constant `TYPES_ORDERED` of `lowestType`. -/
def TYPES_ORDERED : List ShapeKind :=
  [ShapeKind.solid, ShapeKind.shell, ShapeKind.face, ShapeKind.wire,
   ShapeKind.edge, ShapeKind.vertex]

/-- `TYPES_ORDERED.indexOf(s.type())`. Every kind occurs in the list, so
the JS not-found value `-1` never arises. -/
def typeIndex (k : ShapeKind) : ℤ := (TYPES_ORDERED.indexOf k : ℤ)

/-- The `forEach` loop of `lowestType`, carrying `lowestType` and
`lowestTypeIndex` as accumulators: a shape replaces the accumulator when
its `TYPES_ORDERED` index is strictly greater. -/
def lowestTypeGo : List ShapeData → Option ShapeKind → ℤ → Option ShapeKind
  | [], cur, _ => cur
  | s :: rest, cur, curIdx =>
      if typeIndex s.kind > curIdx then
        lowestTypeGo rest (some s.kind) (typeIndex s.kind)
      else
        lowestTypeGo rest cur curIdx

/-- `ShapeCollection.lowestType()`: accumulators start at `null` / `-1`. -/
def lowestType (shapes : List ShapeData) : Option ShapeKind :=
  lowestTypeGo shapes none (-1)

lemma typeIndex_nonneg (k : ShapeKind) : 0 ≤ typeIndex k := by
  cases k <;> decide

lemma lowestTypeGo_spec :
    ∀ (l : List ShapeData) (cur : Option ShapeKind) (curIdx : ℤ),
      (lowestTypeGo l cur curIdx = cur ∧ ∀ s ∈ l, typeIndex s.kind ≤ curIdx)
        ∨ (∃ s ∈ l, lowestTypeGo l cur curIdx = some s.kind
            ∧ curIdx < typeIndex s.kind
            ∧ ∀ t ∈ l, typeIndex t.kind ≤ typeIndex s.kind) := by
  intro l
  induction l with
  | nil =>
      intro cur curIdx
      left
      exact ⟨rfl, by intro s hs; simp at hs⟩
  | cons s rest ih =>
      intro cur curIdx
      by_cases h : typeIndex s.kind > curIdx
      · have heq : lowestTypeGo (s :: rest) cur curIdx
            = lowestTypeGo rest (some s.kind) (typeIndex s.kind) := by
          simp [lowestTypeGo, h]
        rcases ih (some s.kind) (typeIndex s.kind) with
          ⟨hres, hball⟩ | ⟨t, ht, hres, hlt, hball⟩
        · right
          refine ⟨s, List.mem_cons_self s rest, by rw [heq, hres], h, ?_⟩
          intro u humem
          rcases List.mem_cons.mp humem with rfl | humem
          · exact le_refl _
          · exact hball u humem
        · right
          refine ⟨t, List.mem_cons_of_mem s ht, by rw [heq, hres],
            lt_trans h hlt, ?_⟩
          intro u humem
          rcases List.mem_cons.mp humem with rfl | humem
          · exact le_of_lt hlt
          · exact hball u humem
      · have heq : lowestTypeGo (s :: rest) cur curIdx
            = lowestTypeGo rest cur curIdx := by
          simp [lowestTypeGo, h]
        have hle : typeIndex s.kind ≤ curIdx := not_lt.mp h
        rcases ih cur curIdx with ⟨hres, hball⟩ | ⟨t, ht, hres, hlt, hball⟩
        · left
          refine ⟨by rw [heq, hres], ?_⟩
          intro u humem
          rcases List.mem_cons.mp humem with rfl | humem
          · exact hle
          · exact hball u humem
        · right
          refine ⟨t, List.mem_cons_of_mem s ht, by rw [heq, hres], hlt, ?_⟩
          intro u humem
          rcases List.mem_cons.mp humem with rfl | humem
          · exact le_of_lt (lt_of_le_of_lt hle hlt)
          · exact hball u humem

/-- Sample Solid member used in concrete lowestType inputs. -/
def demoSolid : ShapeData := ⟨ShapeKind.solid, false, 2, 2, ⟨0, 0, 0⟩, none⟩

/-- Sample Vertex member used in concrete lowestType inputs. -/
def demoVertex : ShapeData := ⟨ShapeKind.vertex, false, 3, 3, ⟨0, 0, 0⟩, none⟩

/-- Claim C6 counterexample: on a collection holding a Solid and a Vertex,
`lowestType()` returns Vertex — not Solid, the structurally
highest-dimension type present claimed by the spec. The loop keeps the
member whose `TYPES_ORDERED` index is greatest, and Vertex is last in that
list. -/
theorem lowestType_cex :
    lowestType [demoSolid, demoVertex] = some ShapeKind.vertex
      ∧ lowestType [demoSolid, demoVertex] ≠ some ShapeKind.solid := by
  refine ⟨by decide, by decide⟩

/-- Claim C6 (amended): for every non-empty collection, `lowestType()`
returns the kind of a member whose `TYPES_ORDERED` index is maximal, i.e.
the structurally lowest-dimension type present, ranked
Vertex over Edge over Wire over Face over Shell over Solid. -/
theorem lowestType_lowest_dim (shapes : List ShapeData) (hne : shapes ≠ []) :
    ∃ s ∈ shapes, lowestType shapes = some s.kind
      ∧ ∀ t ∈ shapes, typeIndex t.kind ≤ typeIndex s.kind := by
  rcases lowestTypeGo_spec shapes none (-1) with ⟨_, hball⟩ | ⟨s, hs, hres, _, hball⟩
  · cases shapes with
    | nil => exact absurd rfl hne
    | cons s rest =>
        have h0 := hball s (List.mem_cons_self s rest)
        have h1 := typeIndex_nonneg s.kind
        omega
  · exact ⟨s, hs, hres, hball⟩

/-- Witness for the amended C6 at a concrete two-member collection. -/
theorem lowestType_lowest_dim_witness :
    ([demoSolid, demoVertex] : List ShapeData) ≠ []
      ∧ ∃ s ∈ [demoSolid, demoVertex], lowestType [demoSolid, demoVertex] = some s.kind
          ∧ ∀ t ∈ [demoSolid, demoVertex], typeIndex t.kind ≤ typeIndex s.kind :=
  ⟨by decide, lowestType_lowest_dim [demoSolid, demoVertex] (by decide)⟩

/-! ## distinct / unique (part_000 lines 1313-1353) -/

/-- The `forEach` of `distinct()`: the object `distinctShapesByHash` keeps
the first shape seen for each `_hashcode()`; `Object.values` is modelled as
first-occurrence order. -/
def distinctGo : List ShapeData → List ℕ → List ShapeData
  | [], _ => []
  | s :: rest, seen =>
      if s.hash ∈ seen then distinctGo rest seen
      else s :: distinctGo rest (s.hash :: seen)

/-- `ShapeCollection.distinct()`: dedup by kernel identity hash. -/
def distinct (shapes : List ShapeData) : List ShapeData := distinctGo shapes []

/-- Kernel geometric equality (`Shape.equals`), modelled on the `geo`
attribute. -/
def geomEq (a b : ShapeData) : Bool := a.geo == b.geo

/-- The `forEach` of `unique()` (part_000 lines 1322-1330). NOTE, verbatim
from the source: the update `usedShapes.concat(equalShapes.concat([cur]))`
calls `Array.prototype.concat`, which returns a new array; its result is
discarded, so `usedShapes` is never extended and stays `[]`. The
`equalShapes` filter is likewise computed and dropped. -/
def uniqueGo (allShapes : List ShapeData) :
    List ShapeData → List ShapeData → List ShapeData → List ShapeData
  | [], _usedShapes, uniqueShapes => uniqueShapes
  | cur :: rest, usedShapes, uniqueShapes =>
      if cur ∈ usedShapes then uniqueGo allShapes rest usedShapes uniqueShapes
      else
        uniqueGo allShapes rest usedShapes (uniqueShapes ++ [cur])

/-- `ShapeCollection.unique()`: run `distinct()` first, then the
(ineffective, see `uniqueGo`) geometric-equality pass. -/
def unique (shapes : List ShapeData) : List ShapeData :=
  let ds := distinct shapes
  uniqueGo ds ds [] []

/-- Sample shape: hash 1, geometry 7. -/
def uShapeA : ShapeData := ⟨ShapeKind.edge, false, 1, 7, ⟨0, 0, 0⟩, none⟩

/-- Sample shape: hash 2, same geometry 7 as `uShapeA`. -/
def uShapeB : ShapeData := ⟨ShapeKind.edge, false, 2, 7, ⟨0, 0, 0⟩, none⟩

/-- Claim C7: `unique()` is claimed to drop geometric-equality duplicates.
It does not: for two shapes with distinct identity hashes but equal
geometry, both survive, because the `usedShapes.concat(...)` result is
discarded (JS `concat` does not mutate), so no shape is ever skipped by
the geometric pass. -/
theorem unique_keeps_geometric_duplicates :
    unique [uShapeA, uShapeB] = [uShapeA, uShapeB]
      ∧ geomEq uShapeA uShapeB = true
      ∧ uShapeA ≠ uShapeB := by
  refine ⟨by decide, by decide, by decide⟩

/-! ## Collection bbox / center (part_000 lines 770-799) -/

/-- The fold of `ShapeCollection.bbox()` over the members after the first:
a member whose own box is falsy is skipped; otherwise
`combinedBbox = combinedBbox.added(bbox)`. `Except.error` marks a thrown
TypeError: `.added` called on a falsy accumulator, or (via the `Option`
accumulator being `none` after a failed `create`) `added` reading the
`null` bounds of the accumulated instance. -/
def collBboxGo : Option Bbox → List ShapeData → Except Unit (Option Bbox)
  | acc, [] => Except.ok acc
  | acc, s :: rest =>
      match s.sbbox with
      | none => collBboxGo acc rest
      | some b =>
          match acc with
          | none => Except.error ()
          | some cb => collBboxGo (Bbox.added cb b) rest

/-- `ShapeCollection.bbox()` (part_000 lines 784-799). On an empty
collection `this.first()` is `undefined` and `.bbox()` on it throws a
TypeError — modelled as `Except.error ()`. -/
def collBbox (shapes : List ShapeData) : Except Unit (Option Bbox) :=
  match shapes with
  | [] => Except.error ()
  | first :: rest => collBboxGo first.sbbox rest

/-- `ShapeCollection.center()` (part_000 lines 770-781): switch on
`count()` — 0 returns `null`; 1 returns the first member's own bbox center
(or `null` when it has no box); otherwise the aggregate `bbox().center()`
(reading `center()` off a bounds-less aggregate throws). -/
def collCenter (shapes : List ShapeData) : Except Unit (Option Vec3) :=
  match shapes with
  | [] => Except.ok none
  | [s] =>
      match s.sbbox with
      | some b => Except.ok (some b.center)
      | none => Except.ok none
  | _ =>
      match collBbox shapes with
      | Except.error e => Except.error e
      | Except.ok none => Except.error ()
      | Except.ok (some b) => Except.ok (some b.center)

/-- Claim C4 counterexample: `bbox()` on an empty collection does not
return a none result — it throws (the code calls `.bbox()` on the
`undefined` result of `first()`). -/
theorem collBbox_empty_throws :
    collBbox ([] : List ShapeData) = Except.error () := rfl

/-- Claim C4 (amended): on an empty collection, `center()` returns `null`
without failing, but `bbox()` raises a TypeError instead of returning a
none result. -/
theorem empty_collection_center_null_bbox_throws :
    collCenter ([] : List ShapeData) = Except.ok none
      ∧ collBbox ([] : List ShapeData) = Except.error () :=
  ⟨rfl, rfl⟩

/-! ## In-place vs copy transform pairs (part_000 lines 374-496) -/

/-- A ShapeCollection instance: `cid` is its object identity (a fresh id is
allocated for each `new ShapeCollection`), `shapes` its member array.
Per-shape kernel transforms (`shape.move`, `shape.rotateEuler`, ...) live
on the Shape class outside this excerpt and are passed in as an opaque
function on member shapes. -/
structure SC where
  cid : ℕ
  shapes : List ShapeData
deriving DecidableEq

/-- `ShapeCollection.moved(vector)` (part_000 lines 384-391):
`this.copy()` deep-copies the members into a fresh instance (`nid`), the
copies are mutated (`map f`), the fresh instance is returned. The result
pair is (state of the original after the call, returned reference). -/
def SC.moved (c : SC) (nid : ℕ) (f : ShapeData → ShapeData) : SC × SC :=
  let newCollection : SC := ⟨nid, c.shapes.map f⟩
  (c, newCollection)

/-- `ShapeCollection.mirroredX(offset)` (part_000 lines 578-583): copy,
mutate the copy with `mirrorX`, return the copy. -/
def SC.mirroredX (c : SC) (nid : ℕ) (f : ShapeData → ShapeData) : SC × SC :=
  let newCollection : SC := ⟨nid, c.shapes.map f⟩
  (c, newCollection)

/-- `ShapeCollection.scaled(factor)` (part_000 lines 491-496): `_copy`,
`scale` the copy, return the copy. -/
def SC.scaled (c : SC) (nid : ℕ) (f : ShapeData → ShapeData) : SC × SC :=
  let newCollection : SC := ⟨nid, c.shapes.map f⟩
  (c, newCollection)

/-- `ShapeCollection.rotatedEuler(degX, degY, degZ, pivot)` (part_000
lines 422-429), verbatim: the copy is made and its members are rotated,
but the method body ends with `return this;` — the rotated copy is
discarded and the ORIGINAL instance is returned (unchanged: the rotation
was applied to the copies). -/
def SC.rotatedEuler (c : SC) (nid : ℕ) (f : ShapeData → ShapeData) : SC × SC :=
  let _newCollection : SC := ⟨nid, c.shapes.map f⟩
  (c, c)

/-- `ShapeCollection.rotate(r)` (part_000 lines 432-439), verbatim: a fresh
EMPTY collection is created and ITS (empty) `shapes` array is iterated
with the per-shape rotation; `this` is returned. The member shapes of
`this` are never touched. -/
def SC.rotate (c : SC) (nid : ℕ) (f : ShapeData → ShapeData) : SC × SC :=
  let _newCollection : SC := ⟨nid, List.map f []⟩
  (c, c)

/-- Sample member for the transform theorems. -/
def demoRotShape : ShapeData := ⟨ShapeKind.vertex, false, 5, 5, ⟨1, 0, 0⟩, none⟩

/-- A concrete stand-in for the opaque per-shape kernel rotation (any
position change exhibits the behaviour). -/
def demoRotFun : ShapeData → ShapeData :=
  fun s => { s with pos := ⟨s.pos.y, s.pos.x, s.pos.z⟩ }

/-- Claim C5: the "create copy" transforms are claimed to return a new
collection distinct from the original. `rotatedEuler` does not: it returns
the original instance `(c, c)` — the freshly allocated rotated copy
(which would be the distinct collection ⟨1, ...⟩) is discarded by
`return this`. -/
theorem rotatedEuler_returns_original :
    SC.rotatedEuler ⟨0, [demoRotShape]⟩ 1 demoRotFun
        = (⟨0, [demoRotShape]⟩, ⟨0, [demoRotShape]⟩)
      ∧ demoRotFun demoRotShape ≠ demoRotShape
      ∧ (⟨1, [demoRotFun demoRotShape]⟩ : SC) ≠ (⟨0, [demoRotShape]⟩ : SC) := by
  refine ⟨by decide, by decide, by decide⟩

/-- Claim C10: `rotate(r)` iterates a freshly created empty collection, so
every member of `this` is left unchanged, and `this` itself is returned:
for every collection, allocator state and per-shape rotation, the original
state is unchanged and the returned reference is the original instance. -/
theorem rotate_is_noop (c : SC) (nid : ℕ) (f : ShapeData → ShapeData) :
    SC.rotate c nid f = (c, c) := rfl

end Archiyou
